import Mathlib

/-!
Shallow embedding of `src/strava_km.py` (Team Rynkeby Strava km reporter).

Numbers are modelled exactly: Python floats become `ℚ`, epoch seconds become
`ℤ`.  JSON records become a structure holding exactly the fields the program
reads; `none` models both an absent key and a JSON `null`.  The network is a
deterministic oracle: a server is a function from (page, attempt) to an HTTP
response, and the loops of the program are written with explicit fuel (the
Python loops are unbounded; every theorem that runs them supplies enough fuel
for its hypotheses).
-/

namespace StravaKm

/-- One activity record as returned by the API: only the fields the pipeline
reads (`should_count` reads `sport_type` and `type`, the accumulator reads
`distance` in meters).  `none` models an absent key or a JSON `null`. -/
structure Activity where
  sport_type : Option String
  type : Option String
  distance : Option ℚ
deriving DecidableEq, Repr

/-- The allow-list of `should_count` (src line 74 / 78). -/
def rideTypes : List String := ["Ride", "GravelRide", "VirtualRide"]

/-- Python `str.strip()`: drop whitespace from both ends. -/
def pyStrip (s : String) : String :=
  ⟨((s.data.dropWhile Char.isWhitespace).reverse.dropWhile Char.isWhitespace).reverse⟩

/-- `should_count` (src lines 64-78): prefer `sport_type` when its stripped
value is non-empty, else fall back to `type`; membership is tested on the
stripped value.  Python `(x or "").strip()` is `pyStrip (x.getD "")`. -/
def should_count (a : Activity) : Bool :=
  let st := pyStrip (a.sport_type.getD "")
  if st.isEmpty then
    let t := pyStrip (a.type.getD "")
    rideTypes.contains t
  else
    rideTypes.contains st

/-- Python `int()` on a real number: truncation toward zero. -/
def pyInt (q : ℚ) : ℤ :=
  if 0 ≤ q then ⌊q⌋ else ⌈q⌉

/-- `iso_to_unix` (src lines 22-30) with the input instant already parsed to
fractional epoch seconds (the dateutil parsing of the ISO string is outside
the model): `int(d.timestamp())`, i.e. truncation toward zero. -/
def iso_to_unix (t : ℚ) : ℤ := pyInt t

/-- An HTTP response to an activities request: status code plus decoded JSON
body (list of activity records; only meaningful when the status is a success). -/
structure HttpResp where
  status_code : ℕ
  body : List Activity
deriving DecidableEq, Repr

/-- The transient statuses of the retry loop (src line 126). -/
def transientStatus (c : ℕ) : Bool :=
  c = 429 || c = 500 || c = 502 || c = 503 || c = 504

/-- Error message raised on HTTP 401 (src lines 120-123). -/
def msg401 : String :=
  "401 från Strava: access_token saknar troligen 'activity:read'/'activity:read_all' eller är ogiltig. Gör om OAuth och uppdatera STRAVA_REFRESH_TOKEN i Secrets."

/-- Error message raised on HTTP 400 (src line 125). -/
def msg400 : String :=
  "400 från Strava: kontrollera att 'after' < 'before' (startdatum före slutdatum)."

/-- The errors the fetch pipeline can raise. -/
inductive FetchError where
  /-- The `after >= before` RuntimeError (src lines 103-106 and 235-239). -/
  | invalidPeriod
  /-- The 401 RuntimeError (src lines 119-123). -/
  | authError (msg : String)
  /-- The 400 RuntimeError (src lines 124-125). -/
  | badRequest (msg : String)
  /-- `raise_for_status` on any other non-success status (src lines 131, 134). -/
  | httpError (status : ℕ)
deriving DecidableEq, Repr

/-- Outcome of one `_get` call. -/
inductive GetOutcome where
  | ok (resp : HttpResp)
  | err (e : FetchError)
deriving DecidableEq, Repr

/-- Observable behaviour of one `_get` call: how many requests were issued,
the durations slept between them, and the outcome. -/
structure GetOut where
  requests : ℕ
  sleeps : List ℚ
  outcome : GetOutcome
deriving DecidableEq, Repr

/-- `base_sleep=1.5` (src line 115). -/
def base_sleep : ℚ := 3 / 2

/-- The body of `_get`'s `for i in range(tries)` loop (src lines 115-134).
`respAt i` is the response the server gives to the `i`-th attempt (identical
request parameters each time); `i` is the current loop index, the second
argument the remaining iterations.  When the loop runs out, the dangling
`resp.raise_for_status()` (src line 134) raises with the status of the last
response, which was attempt `i - 1`. -/
def getAux (respAt : ℕ → HttpResp) : ℕ → ℕ → GetOut
  | i, 0 => ⟨0, [], .err (.httpError (respAt (i - 1)).status_code)⟩
  | i, fuel + 1 =>
    let r := respAt i
    if r.status_code = 401 then
      ⟨1, [], .err (.authError msg401)⟩
    else if r.status_code = 400 then
      ⟨1, [], .err (.badRequest msg400)⟩
    else if transientStatus r.status_code then
      let rest := getAux respAt (i + 1) fuel
      ⟨rest.requests + 1, base_sleep * 2 ^ i :: rest.sleeps, rest.outcome⟩
    else if 400 ≤ r.status_code then
      ⟨1, [], .err (.httpError r.status_code)⟩
    else
      ⟨1, [], .ok r⟩

/-- `_get(params, tries=5, base_sleep=1.5)` (src lines 115-134). -/
def get_page (respAt : ℕ → HttpResp) : GetOut := getAux respAt 0 5

/-- One iteration of the accumulator body (src lines 143-146):
`total_km += float(a.get("distance") or 0) / 1000.0` when the record counts. -/
def addActivity (acc : ℚ) (a : Activity) : ℚ :=
  if should_count a then acc + (a.distance.getD 0) / 1000 else acc

/-- Accumulate one page's records in order (the `for a in activities` loop). -/
def addPage (acc : ℚ) (body : List Activity) : ℚ :=
  body.foldl addActivity acc

/-- The km contribution of a single record. -/
def kmOf (a : Activity) : ℚ :=
  if should_count a then (a.distance.getD 0) / 1000 else 0

/-- The km total of a list of records. -/
def ksum (l : List Activity) : ℚ := (l.map kmOf).sum

/-- The query parameters of one page request (src line 137). -/
structure PageParams where
  after : ℤ
  before : ℤ
  page : ℕ
  per_page : ℕ
deriving DecidableEq, Repr

/-- Result of `fetch_km`. -/
inductive FetchOut where
  | ok (total : ℚ)
  | err (e : FetchError)
  /-- The supplied fuel ran out before the loop terminated (a modelling
  artefact: the Python loop is unbounded). -/
  | fuelOut
deriving DecidableEq, Repr

/-- Observable behaviour of `fetch_km`: the page-level requests issued in
order, and the outcome. -/
structure FetchRes where
  calls : List PageParams
  out : FetchOut
deriving DecidableEq, Repr

/-- An activities server: maps (page number, attempt index within that page's
retry loop) to the HTTP response served. -/
def Server := ℕ → ℕ → HttpResp

/-- The `while True` pagination loop of `fetch_km` (src lines 136-148):
request the current page through `_get`, stop on an empty body, otherwise
accumulate and move to the next page. -/
def fetchAux (server : Server) (after before : ℤ) : ℕ → ℕ → ℚ → FetchRes
  | 0, _, _ => ⟨[], .fuelOut⟩
  | fuel + 1, page, acc =>
    let g := get_page (server page)
    let p : PageParams := ⟨after, before, page, 200⟩
    match g.outcome with
    | .err e => ⟨[p], .err e⟩
    | .ok resp =>
      if resp.body.isEmpty then
        ⟨[p], .ok acc⟩
      else
        let rest := fetchAux server after before fuel (page + 1) (addPage acc resp.body)
        ⟨p :: rest.calls, rest.out⟩

/-- `fetch_km(access_token, start_iso, end_iso)` (src lines 99-150): convert
both bounds with `iso_to_unix`, reject `after >= before`, then paginate with
`per_page = 200` from page 1.  The access token only feeds the auth header and
does not influence the model. -/
def fetch_km (server : Server) (start_t end_t : ℚ) (fuel : ℕ) : FetchRes :=
  let after := iso_to_unix start_t
  let before := iso_to_unix end_t
  if before ≤ after then
    ⟨[], .err .invalidPeriod⟩
  else
    fetchAux server after before fuel 1 0

/-- A server that always answers 200 with the body given by `pages` for the
requested page (attempt index irrelevant). -/
def okServer (pages : ℕ → List Activity) : Server :=
  fun page _ => ⟨200, pages page⟩

/-- The page function delivering the chunks of `chunks` as pages 1, 2, ...
and `[]` from page `chunks.length + 1` on. -/
def pagesOfChunks (chunks : List (List Activity)) : ℕ → List Activity :=
  fun p => chunks.getD (p - 1) []

/-- Python `round()` on an exact value: round half to even. -/
def pyRound (q : ℚ) : ℤ :=
  let f := ⌊q⌋
  let r := q - f
  if r < 1 / 2 then f
  else if 1 / 2 < r then f + 1
  else if f % 2 = 0 then f else f + 1

/-- `bar_w = W - 2 * PAD - 160` with `W = 1200`, `PAD = 60` (src line 178). -/
def bar_w : ℤ := 1200 - 2 * 60 - 160

/-- The quantities `draw_style_3` computes from its inputs (src lines
155-198): headline text, progress fraction, fill width in pixels, subtext,
period line. -/
structure Style3 where
  km_txt : String
  pct : ℚ
  fill_w : ℤ
  sub : String
  period : String
deriving DecidableEq, Repr

/-- The value-level content of `draw_style_3(km, goal_km, period_label, ...)`
(src lines 155-198): `km_int = int(round(km))`, headline `f"{km_int} km"`,
`pct = 0.0 if goal_km <= 0 else max(0.0, min(1.0, km / goal_km))`,
`fill_w = int(bar_w * pct)`, subtext `f"{km_int} / {goal_int} km cyklade"`. -/
def draw_style_3 (km goal_km : ℚ) (period_label : String) : Style3 :=
  let km_int := pyRound km
  let goal_int := pyRound goal_km
  let km_txt := toString km_int ++ " km"
  let pct : ℚ := if goal_km ≤ 0 then 0 else max 0 (min 1 (km / goal_km))
  let fill_w := pyInt ((bar_w : ℚ) * pct)
  let sub := toString km_int ++ " / " ++ toString goal_int ++ " km cyklade"
  ⟨km_txt, pct, fill_w, sub, period_label⟩

/-- An outbound network request of `main`. -/
inductive NetEvent where
  /-- The POST of `refresh_access_token` (src lines 86-95). -/
  | tokenPost
  /-- One GET of the activities endpoint for the given page. -/
  | activitiesGet (page : ℕ)
deriving DecidableEq, Repr

/-- Outcome of a `main` run. -/
inductive MainOut where
  | ok (total : ℚ)
  | err (e : FetchError)
  /-- `refresh_access_token` raised (non-success status on the token POST). -/
  | tokenErr
  | fuelOut
deriving DecidableEq, Repr

/-- The page-level GETs of a fetch result as network events. -/
def fetchEvents (r : FetchRes) : List NetEvent :=
  r.calls.map fun p => .activitiesGet p.page

/-- Network trace of `main` (src lines 221-241): first
`refresh_access_token()` issues its POST (raising on failure), then the
period sanity check (src lines 233-239) runs, and only then `fetch_km` is
called.  `tokenOk` says whether the token POST succeeds. -/
def main_net (tokenOk : Bool) (server : Server) (start_t end_t : ℚ) (fuel : ℕ) :
    List NetEvent × MainOut :=
  if !tokenOk then
    ([.tokenPost], .tokenErr)
  else
    let start_ts := iso_to_unix start_t
    let end_ts := iso_to_unix end_t
    if end_ts ≤ start_ts then
      ([.tokenPost], .err .invalidPeriod)
    else
      let r := fetch_km server start_t end_t fuel
      (.tokenPost :: fetchEvents r,
        match r.out with
        | .ok t => .ok t
        | .err e => .err e
        | .fuelOut => .fuelOut)

/-- An output artifact of a run (src lines 200-216 and 243-250). -/
inductive Artifact where
  | png
  | svg
  | txt
deriving DecidableEq, Repr

/-- File-write trace of `main`: which artifacts a run leaves on disk, and
whether the run succeeded.  The source writes them strictly in the order PNG
(src line 202), SVG (src lines 215-216), text summary (src lines 249-250),
with no cleanup on error; `fetchOk` abstracts everything before rendering
(token refresh, validation, fetch) succeeding, and `wfail a` says whether the
write of artifact `a` raises an I/O error. -/
def main_writes (fetchOk : Bool) (wfail : Artifact → Bool) :
    List Artifact × Bool :=
  if !fetchOk then ([], false)
  else if wfail .png then ([], false)
  else if wfail .svg then ([.png], false)
  else if wfail .txt then ([.png, .svg], false)
  else ([.png, .svg, .txt], true)

/-- The classifier exactly as claim C4 words it, legacy branch: the chosen
field is `type`, and its (raw) value must be exactly in the allow-list;
a missing field classifies as false. -/
def spec_counts_exact_legacy (a : Activity) : Bool :=
  match a.type with
  | some w => rideTypes.contains w
  | none => false

/-- The classifier exactly as claim C4 words it: the chosen field is
`sport_type` when present and non-blank after stripping, otherwise `type`,
and the chosen field's (raw) value must be exactly one of
`"Ride"`, `"GravelRide"`, `"VirtualRide"`. -/
def spec_counts_exact (a : Activity) : Bool :=
  match a.sport_type with
  | some v => if (pyStrip v).isEmpty then spec_counts_exact_legacy a else rideTypes.contains v
  | none => spec_counts_exact_legacy a

/-- The amended classifier spec, legacy branch: the chosen field is `type`
and its whitespace-stripped value must be exactly in the allow-list. -/
def spec_counts_stripped_legacy (a : Activity) : Bool :=
  match a.type with
  | some w => rideTypes.contains (pyStrip w)
  | none => false

/-- The amended classifier spec: the chosen field is `sport_type` when
present and non-blank after stripping, otherwise `type`, and the chosen
field's whitespace-stripped value must be exactly one of the allow-list. -/
def spec_counts_stripped (a : Activity) : Bool :=
  match a.sport_type with
  | some v =>
    if (pyStrip v).isEmpty then spec_counts_stripped_legacy a
    else rideTypes.contains (pyStrip v)
  | none => spec_counts_stripped_legacy a

/-- Round to the nearest IEEE binary64 value, ties to even, for arguments in
the normal, non-overflowing range of doubles (overflow to infinity and
subnormal underflow are outside this model's range; every use below is well
inside it).  A positive `q` is scaled by `2 ^ (52 - ⌊log₂ q⌋)` into
`[2^52, 2^53)`, its 53-bit significand is rounded half-to-even (`pyRound`),
and the result is scaled back. -/
def f64Round (q : ℚ) : ℚ :=
  if q = 0 then 0
  else if q < 0 then
    -((pyRound (-q * 2 ^ ((52 : ℤ) - Int.log 2 (-q))) : ℚ) * 2 ^ (Int.log 2 (-q) - 52))
  else
    (pyRound (q * 2 ^ ((52 : ℤ) - Int.log 2 q)) : ℚ) * 2 ^ (Int.log 2 q - 52)

/-- IEEE binary64 addition: exact sum, then rounding. -/
def f64add (x y : ℚ) : ℚ := f64Round (x + y)

/-- IEEE binary64 division: exact quotient, then rounding. -/
def f64div (x y : ℚ) : ℚ := f64Round (x / y)

/-- The accumulator body (src lines 143-146) at float granularity:
`total_km += float(meters) / 1000.0` rounds once at the division and once at
the addition.  `addActivity` is the exact-arithmetic counterpart used where
the claims do not depend on rounding. -/
def addActivityF (acc : ℚ) (a : Activity) : ℚ :=
  if should_count a then f64add acc (f64div (a.distance.getD 0) 1000) else acc

/-- Accumulate one page's records in order, at float granularity. -/
def addPageF (acc : ℚ) (body : List Activity) : ℚ :=
  body.foldl addActivityF acc

/-- The pagination loop (src lines 136-148) at float granularity: identical
to `fetchAux` except that records accumulate with binary64 rounding. -/
def fetchAuxF (server : Server) (after before : ℤ) : ℕ → ℕ → ℚ → FetchRes
  | 0, _, _ => ⟨[], .fuelOut⟩
  | fuel + 1, page, acc =>
    let g := get_page (server page)
    let p : PageParams := ⟨after, before, page, 200⟩
    match g.outcome with
    | .err e => ⟨[p], .err e⟩
    | .ok resp =>
      if resp.body.isEmpty then
        ⟨[p], .ok acc⟩
      else
        let rest := fetchAuxF server after before fuel (page + 1) (addPageF acc resp.body)
        ⟨p :: rest.calls, rest.out⟩

/-- `fetch_km` (src lines 99-150) at float granularity. -/
def fetch_kmF (server : Server) (start_t end_t : ℚ) (fuel : ℕ) : FetchRes :=
  let after := iso_to_unix start_t
  let before := iso_to_unix end_t
  if before ≤ after then
    ⟨[], .err .invalidPeriod⟩
  else
    fetchAuxF server after before fuel 1 0

/-! ## Theorems -/

/-- Every transient status is at least 429. -/
lemma transient_429_le {c : ℕ} (h : transientStatus c = true) : 429 ≤ c := by
  simp [transientStatus] at h
  rcases h with h | h | h | h | h <;> omega

/-- Success statuses are never transient. -/
lemma transientStatus_eq_false {c : ℕ} (h : c < 400) : transientStatus c = false := by
  cases hc : transientStatus c with
  | false => rfl
  | true => exact absurd (transient_429_le hc) (by omega)

/-- One step of the retry loop on a success status: a single request, no
sleep, the response returned. -/
lemma getAux_success {respAt : ℕ → HttpResp} {i fuel : ℕ} (hfuel : 0 < fuel)
    (h : (respAt i).status_code < 400) :
    getAux respAt i fuel = ⟨1, [], .ok (respAt i)⟩ := by
  obtain ⟨f, rfl⟩ : ∃ f, fuel = f + 1 := ⟨fuel - 1, by omega⟩
  have h401 : ¬ (respAt i).status_code = 401 := by omega
  have h400 : ¬ (respAt i).status_code = 400 := by omega
  have htr : transientStatus (respAt i).status_code = false := transientStatus_eq_false h
  have hge : ¬ (400 ≤ (respAt i).status_code) := by omega
  simp [getAux, h401, h400, htr, hge]

/-- One step of the retry loop on a 401: a single request, no sleep, the
auth error raised. -/
lemma getAux_401 {respAt : ℕ → HttpResp} {i fuel : ℕ} (hfuel : 0 < fuel)
    (h : (respAt i).status_code = 401) :
    getAux respAt i fuel = ⟨1, [], .err (.authError msg401)⟩ := by
  obtain ⟨f, rfl⟩ : ∃ f, fuel = f + 1 := ⟨fuel - 1, by omega⟩
  simp [getAux, h]

/-- One step of the retry loop on a 400: a single request, no sleep, the
bad-request error raised. -/
lemma getAux_400 {respAt : ℕ → HttpResp} {i fuel : ℕ} (hfuel : 0 < fuel)
    (h : (respAt i).status_code = 400) :
    getAux respAt i fuel = ⟨1, [], .err (.badRequest msg400)⟩ := by
  obtain ⟨f, rfl⟩ : ∃ f, fuel = f + 1 := ⟨fuel - 1, by omega⟩
  simp [getAux, h]

/-- One step of the retry loop on a transient status: one request, one
backoff sleep of `base_sleep * 2 ^ i`, then the loop continues. -/
lemma getAux_transient_step {respAt : ℕ → HttpResp} {i f : ℕ}
    (h0 : transientStatus (respAt i).status_code = true) :
    getAux respAt i (f + 1) =
      ⟨(getAux respAt (i + 1) f).requests + 1,
       base_sleep * 2 ^ i :: (getAux respAt (i + 1) f).sleeps,
       (getAux respAt (i + 1) f).outcome⟩ := by
  have h401 : ¬ (respAt i).status_code = 401 := by
    have := transient_429_le h0; omega
  have h400 : ¬ (respAt i).status_code = 400 := by
    have := transient_429_le h0; omega
  simp [getAux, h401, h400, h0]

/-- Running the retry loop through `j` transient responses: `j` extra
requests, the backoff sleeps `base_sleep * 2 ^ i, ..., base_sleep * 2 ^ (i + j - 1)`,
then whatever the loop does from attempt `i + j` on. -/
lemma getAux_transient_shift {respAt : ℕ → HttpResp} :
    ∀ (j i fuel : ℕ), j ≤ fuel →
      (∀ k, k < j → transientStatus (respAt (i + k)).status_code = true) →
      getAux respAt i fuel =
        ⟨(getAux respAt (i + j) (fuel - j)).requests + j,
         ((List.range j).map fun k => base_sleep * 2 ^ (i + k)) ++
           (getAux respAt (i + j) (fuel - j)).sleeps,
         (getAux respAt (i + j) (fuel - j)).outcome⟩ := by
  intro j
  induction j with
  | zero => intro i fuel _ _; simp
  | succ n ih =>
    intro i fuel hle htr
    obtain ⟨f, rfl⟩ : ∃ f, fuel = f + 1 := ⟨fuel - 1, by omega⟩
    have h0 : transientStatus (respAt i).status_code = true := by
      have := htr 0 (by omega); simpa using this
    have hrec := ih (i + 1) f (by omega)
      (fun k hk => by
        have h := htr (k + 1) (by omega)
        have harr : i + 1 + k = i + (k + 1) := by omega
        rw [harr]; exact h)
    have hmap : ((List.range (n + 1)).map fun k => base_sleep * 2 ^ (i + k)) =
        base_sleep * 2 ^ i :: ((List.range n).map fun k => base_sleep * 2 ^ (i + 1 + k)) := by
      rw [List.range_succ_eq_map, List.map_cons, List.map_map]
      have hfun : ((fun k => base_sleep * 2 ^ (i + k)) ∘ Nat.succ) =
          fun k => base_sleep * 2 ^ (i + 1 + k) := by
        funext k
        have h : i + (k + 1) = i + 1 + k := by omega
        simp [Function.comp, Nat.succ_eq_add_one, h]
      rw [hfun]
      norm_num
    have hidx : i + 1 + n = i + (n + 1) := by omega
    have hfl : f - n = f + 1 - (n + 1) := by omega
    rw [getAux_transient_step h0, hrec, hmap, hidx, hfl]
    simp [Nat.add_assoc]


/-- One accumulator step adds exactly the record's contribution. -/
lemma addActivity_eq (acc : ℚ) (a : Activity) : addActivity acc a = acc + kmOf a := by
  by_cases h : should_count a <;> simp [addActivity, kmOf, h]

/-- Accumulating a page adds exactly the page's km total. -/
lemma addPage_eq (l : List Activity) : ∀ acc : ℚ, addPage acc l = acc + ksum l := by
  induction l with
  | nil => intro acc; simp [addPage, ksum]
  | cons a l ih =>
    intro acc
    have h1 : addPage acc (a :: l) = addPage (addActivity acc a) l := rfl
    rw [h1, ih, addActivity_eq]
    simp [ksum]
    ring

/-- `ksum` distributes over append. -/
lemma ksum_append (l₁ l₂ : List Activity) : ksum (l₁ ++ l₂) = ksum l₁ + ksum l₂ := by
  simp [ksum]

/-- Running the pagination loop against an always-200 server whose first
empty page, counting from `page`, is `page + n`: the loop requests exactly
pages `page, ..., page + n` with `per_page = 200` and returns the
accumulator plus the km total of the non-empty pages' records. -/
lemma fetchAux_ok_run (pages : ℕ → List Activity) (a b : ℤ) :
    ∀ (n page : ℕ) (acc : ℚ) (fuel : ℕ), n < fuel →
      (∀ k, k < n → pages (page + k) ≠ []) → pages (page + n) = [] →
      fetchAux (okServer pages) a b fuel page acc =
        ⟨(List.range (n + 1)).map fun k => ⟨a, b, page + k, 200⟩,
         .ok (acc + ksum (((List.range n).map fun k => pages (page + k)).flatten))⟩ := by
  intro n
  induction n with
  | zero =>
    intro page acc fuel hf _ hemp
    obtain ⟨f, rfl⟩ : ∃ f, fuel = f + 1 := ⟨fuel - 1, by omega⟩
    have hget : get_page (okServer pages page) = ⟨1, [], .ok ⟨200, pages page⟩⟩ :=
      getAux_success (by omega) (by norm_num [okServer])
    have hpp : pages page = [] := by simpa using hemp
    simp [fetchAux, hget, hpp, ksum, List.range_succ]
  | succ n ih =>
    intro page acc fuel hf hne hemp
    obtain ⟨f, rfl⟩ : ∃ f, fuel = f + 1 := ⟨fuel - 1, by omega⟩
    have hget : get_page (okServer pages page) = ⟨1, [], .ok ⟨200, pages page⟩⟩ :=
      getAux_success (by omega) (by norm_num [okServer])
    have hne0 : pages page ≠ [] := by
      have := hne 0 (by omega); simpa using this
    have hrec := ih (page + 1) (addPage acc (pages page)) f (by omega)
      (fun k hk => by
        have h := hne (k + 1) (by omega)
        have harr : page + 1 + k = page + (k + 1) := by omega
        rw [harr]; exact h)
      (by
        have harr : page + 1 + n = page + (n + 1) := by omega
        rw [harr]; exact hemp)
    have hbody : (pages page).isEmpty = false := by
      cases hpp : pages page with
      | nil => exact absurd hpp hne0
      | cons x xs => rfl
    have hcalls : ((List.range (n + 1 + 1)).map fun k => (⟨a, b, page + k, 200⟩ : PageParams)) =
        ⟨a, b, page, 200⟩ ::
          ((List.range (n + 1)).map fun k => ⟨a, b, page + 1 + k, 200⟩) := by
      rw [List.range_succ_eq_map, List.map_cons, List.map_map]
      have hfun : ((fun k => (⟨a, b, page + k, 200⟩ : PageParams)) ∘ Nat.succ) =
          fun k => (⟨a, b, page + 1 + k, 200⟩ : PageParams) := by
        funext k
        have h : page + (k + 1) = page + 1 + k := by omega
        simp [Function.comp, Nat.succ_eq_add_one, h]
      rw [hfun]
      norm_num
    have hjoin : (((List.range (n + 1)).map fun k => pages (page + k)).flatten : List Activity) =
        pages page ++ ((List.range n).map fun k => pages (page + 1 + k)).flatten := by
      rw [List.range_succ_eq_map, List.map_cons, List.map_map]
      have hfun : ((fun k => pages (page + k)) ∘ Nat.succ) =
          fun k => pages (page + 1 + k) := by
        funext k
        have h : page + (k + 1) = page + 1 + k := by omega
        simp [Function.comp, Nat.succ_eq_add_one, h]
      rw [hfun]
      simp
    have hstep : fetchAux (okServer pages) a b (f + 1) page acc =
        ⟨⟨a, b, page, 200⟩ ::
            (fetchAux (okServer pages) a b f (page + 1) (addPage acc (pages page))).calls,
         (fetchAux (okServer pages) a b f (page + 1) (addPage acc (pages page))).out⟩ := by
      simp [fetchAux, hget, hbody]
    rw [hstep, hrec, hcalls, hjoin, ksum_append, addPage_eq]
    simp [add_assoc]

/-- Claim C3: for a page request, transient statuses (429/500/502/503/504)
are retried with the same parameters up to 5 attempts in total, sleeping
`base_sleep * 2 ^ attempt` after each failed attempt (attempt counted from
0); a success after `j` transient responses means exactly `j + 1` requests
with the `j` backoff sleeps between them; if all 5 attempts are transient,
the error of the final (5th) response is raised and no result is
returned. -/
theorem c3_retry_policy :
    (∀ (respAt : ℕ → HttpResp) (j : ℕ), j < 5 →
      (∀ k, k < j → transientStatus (respAt k).status_code = true) →
      (respAt j).status_code < 400 →
      get_page respAt =
        ⟨j + 1, (List.range j).map fun k => base_sleep * 2 ^ k, .ok (respAt j)⟩) ∧
    (∀ respAt : ℕ → HttpResp,
      (∀ k, k < 5 → transientStatus (respAt k).status_code = true) →
      get_page respAt =
        ⟨5, (List.range 5).map fun k => base_sleep * 2 ^ k,
         .err (.httpError (respAt 4).status_code)⟩) := by
  constructor
  · intro respAt j hj htr hsucc
    unfold get_page
    rw [getAux_transient_shift j 0 5 (by omega)
      (fun k hk => by simpa using htr k hk)]
    have hok : getAux respAt (0 + j) (5 - j) = ⟨1, [], .ok (respAt (0 + j))⟩ :=
      getAux_success (by omega) (by simpa using hsucc)
    rw [hok]
    simp [Nat.add_comm]
  · intro respAt htr
    unfold get_page
    rw [getAux_transient_shift 5 0 5 (by omega)
      (fun k hk => by simpa using htr k hk)]
    simp [getAux]

/-- Claim C3, witness: a 503 on attempt 0 followed by a 200 gives exactly 2
requests with one sleep of 1.5 s between them; five straight 503s give 5
requests and the final response's HTTP error. -/
theorem c3_retry_witness :
    get_page (fun i => if i = 0 then ⟨503, []⟩ else ⟨200, []⟩) =
      ⟨2, [3 / 2], .ok ⟨200, []⟩⟩ ∧
    get_page (fun _ => ⟨503, []⟩) =
      ⟨5, [3 / 2, 3, 6, 12, 24], .err (.httpError 503)⟩ := by
  constructor
  · have h := c3_retry_policy.1 (fun i => if i = 0 then ⟨503, []⟩ else ⟨200, []⟩) 1
      (by omega)
      (fun k hk => by
        have : k = 0 := by omega
        subst this; decide)
      (by norm_num)
    rw [h]
    norm_num [base_sleep, List.range_succ]
  · have h := c3_retry_policy.2 (fun _ => ⟨503, []⟩) (fun k _ => rfl)
    rw [h]
    norm_num [base_sleep, List.range_succ]

/-- Claim C5: a 401 during the activity fetch raises the auth error at once
— after `j` transient attempts the 401 response is the `j + 1`-st and last
request, with no retry — and its message tells the user to redo OAuth
because the token is likely invalid; likewise a 400 raises the bad-request
error at once with no retry. -/
theorem c5_auth_fatal :
    (∀ (respAt : ℕ → HttpResp) (j : ℕ), j < 5 →
      (∀ k, k < j → transientStatus (respAt k).status_code = true) →
      (respAt j).status_code = 401 →
      get_page respAt =
        ⟨j + 1, (List.range j).map fun k => base_sleep * 2 ^ k,
         .err (.authError msg401)⟩) ∧
    (∀ (respAt : ℕ → HttpResp) (j : ℕ), j < 5 →
      (∀ k, k < j → transientStatus (respAt k).status_code = true) →
      (respAt j).status_code = 400 →
      get_page respAt =
        ⟨j + 1, (List.range j).map fun k => base_sleep * 2 ^ k,
         .err (.badRequest msg400)⟩) ∧
    (∃ s₁ s₂ : String,
      msg401 = s₁ ++ ("Gör om OAuth och uppdatera STRAVA_REFRESH_TOKEN i Secrets." ++ s₂)) ∧
    (∃ s₃ s₄ : String, msg401 = s₃ ++ ("ogiltig" ++ s₄)) := by
  refine ⟨?_, ?_, ?_, ?_⟩
  · intro respAt j hj htr h401
    unfold get_page
    rw [getAux_transient_shift j 0 5 (by omega)
      (fun k hk => by simpa using htr k hk)]
    have he : getAux respAt (0 + j) (5 - j) = ⟨1, [], .err (.authError msg401)⟩ :=
      getAux_401 (by omega) (by simpa using h401)
    rw [he]
    simp [Nat.add_comm]
  · intro respAt j hj htr h400
    unfold get_page
    rw [getAux_transient_shift j 0 5 (by omega)
      (fun k hk => by simpa using htr k hk)]
    have he : getAux respAt (0 + j) (5 - j) = ⟨1, [], .err (.badRequest msg400)⟩ :=
      getAux_400 (by omega) (by simpa using h400)
    rw [he]
    simp [Nat.add_comm]
  · exact ⟨"401 från Strava: access_token saknar troligen 'activity:read'/'activity:read_all' eller är ogiltig. ",
      "", by decide⟩
  · exact ⟨"401 från Strava: access_token saknar troligen 'activity:read'/'activity:read_all' eller är ",
      ". Gör om OAuth och uppdatera STRAVA_REFRESH_TOKEN i Secrets.", by decide⟩

/-- Claim C5, witness: an immediate 401 means one single request and the
auth error; a 500 followed by a 400 means two requests and the bad-request
error. -/
theorem c5_auth_witness :
    get_page (fun _ => ⟨401, []⟩) = ⟨1, [], .err (.authError msg401)⟩ ∧
    get_page (fun i => if i = 0 then ⟨500, []⟩ else ⟨400, []⟩) =
      ⟨2, [3 / 2], .err (.badRequest msg400)⟩ := by
  constructor
  · have h := c5_auth_fatal.1 (fun _ => ⟨401, []⟩) 0 (by omega)
      (fun k hk => absurd hk (Nat.not_lt_zero k)) rfl
    simpa using h
  · have h := c5_auth_fatal.2.1 (fun i => if i = 0 then ⟨500, []⟩ else ⟨400, []⟩) 1
      (by omega)
      (fun k hk => by
        have : k = 0 := by omega
        subst this; decide)
      (by norm_num)
    rw [h]
    norm_num [base_sleep, List.range_succ]

/-- Claim C4, counterexample: on a record whose `sport_type` is `" Ride "`
(non-blank after stripping, but not *exactly* an allow-list entry),
`should_count` returns `true`, while the claim — which compares the chosen
field's value exactly against the allow-list — predicts `false`. -/
theorem c4_classifier_counterexample :
    should_count ⟨some " Ride ", none, none⟩ = true ∧
    spec_counts_exact ⟨some " Ride ", none, none⟩ = false := by
  constructor <;> decide

/-- Claim C4, amended: `should_count` returns `true` iff the whitespace-
stripped value of the chosen field is exactly one of `"Ride"`,
`"GravelRide"`, `"VirtualRide"`, the chosen field being `sport_type` when
present and non-blank after stripping, else `type`; both fields
missing/blank classify as `false`. -/
theorem c4_classifier_amended (a : Activity) :
    should_count a = spec_counts_stripped a := by
  obtain ⟨st, t, d⟩ := a
  have h0 : (pyStrip "").isEmpty = true := by decide
  have h1 : rideTypes.contains (pyStrip "") = false := by decide
  have h1' : pyStrip "" ∉ rideTypes := by decide
  cases st with
  | none =>
    cases t with
    | none =>
      simp [should_count, spec_counts_stripped, spec_counts_stripped_legacy, h0, h1, h1']
    | some w =>
      simp [should_count, spec_counts_stripped, spec_counts_stripped_legacy, h0]
  | some v =>
    by_cases h : (pyStrip v).isEmpty
    · cases t with
      | none =>
        simp [should_count, spec_counts_stripped, spec_counts_stripped_legacy, h, h0, h1, h1']
      | some w =>
        simp [should_count, spec_counts_stripped, spec_counts_stripped_legacy, h]
    · simp [should_count, spec_counts_stripped, h]

/-- Claim C7, counterexample: at total=376.4, goal=5000 the headline is
`"376 km"`, but the subtext reads `"376 / 5000 km cyklade"`, not
`"376 / 5000 km"`, and the fill fraction is 941/12500 = 0.07528, not
0.0753. -/
theorem c7_render_counterexample :
    (draw_style_3 (1882 / 5) 5000 "Sedan 2025-10-01").km_txt = "376 km" ∧
    (draw_style_3 (1882 / 5) 5000 "Sedan 2025-10-01").sub = "376 / 5000 km cyklade" ∧
    (draw_style_3 (1882 / 5) 5000 "Sedan 2025-10-01").sub ≠ "376 / 5000 km" ∧
    (draw_style_3 (1882 / 5) 5000 "Sedan 2025-10-01").pct = 941 / 12500 ∧
    (draw_style_3 (1882 / 5) 5000 "Sedan 2025-10-01").pct ≠ 753 / 10000 := by
  have h1 : pyRound (1882 / 5 : ℚ) = 376 := by norm_num [pyRound]
  have h2 : pyRound (5000 : ℚ) = 5000 := by norm_num [pyRound]
  have hp : (draw_style_3 (1882 / 5) 5000 "Sedan 2025-10-01").pct = 941 / 12500 := by
    show (if (5000 : ℚ) ≤ 0 then (0 : ℚ) else max 0 (min 1 (1882 / 5 / 5000))) = 941 / 12500
    rw [if_neg (by norm_num), min_eq_right (by norm_num), max_eq_right (by norm_num)]
    norm_num
  refine ⟨?_, ?_, ?_, hp, ?_⟩
  · show toString (pyRound (1882 / 5 : ℚ)) ++ " km" = "376 km"
    rw [h1]; decide
  · show toString (pyRound (1882 / 5 : ℚ)) ++ " / " ++ toString (pyRound (5000 : ℚ)) ++
      " km cyklade" = "376 / 5000 km cyklade"
    rw [h1, h2]; decide
  · show toString (pyRound (1882 / 5 : ℚ)) ++ " / " ++ toString (pyRound (5000 : ℚ)) ++
      " km cyklade" ≠ "376 / 5000 km"
    rw [h1, h2]; decide
  · rw [hp]; norm_num

/-- Claim C7, amended: the headline reads `"<N> km"` with N the rounded
total, the fill fraction equals total/goal clamped to `[0, 1]` (0 whenever
the goal is non-positive, never negative, never above 1), and the subtext
reads `"<N> / <round(goal)> km cyklade"`. -/
theorem c7_render_amended (km goal_km : ℚ) (label : String) :
    (draw_style_3 km goal_km label).km_txt = toString (pyRound km) ++ " km" ∧
    (goal_km ≤ 0 → (draw_style_3 km goal_km label).pct = 0) ∧
    0 ≤ (draw_style_3 km goal_km label).pct ∧
    (draw_style_3 km goal_km label).pct ≤ 1 ∧
    (0 < goal_km →
      (draw_style_3 km goal_km label).pct = max 0 (min 1 (km / goal_km))) ∧
    (draw_style_3 km goal_km label).sub =
      toString (pyRound km) ++ " / " ++ toString (pyRound goal_km) ++ " km cyklade" := by
  have hpct : (draw_style_3 km goal_km label).pct =
      if goal_km ≤ 0 then 0 else max 0 (min 1 (km / goal_km)) := rfl
  refine ⟨rfl, ?_, ?_, ?_, ?_, rfl⟩
  · intro h; rw [hpct, if_pos h]
  · rw [hpct]
    by_cases h : goal_km ≤ 0
    · rw [if_pos h]
    · rw [if_neg h]; exact le_max_left _ _
  · rw [hpct]
    by_cases h : goal_km ≤ 0
    · rw [if_pos h]; norm_num
    · rw [if_neg h]
      exact max_le (by norm_num) (min_le_left _ _)
  · intro h; rw [hpct, if_neg (not_le.mpr h)]

/-- Claim C7, witness: the amended renderer theorem at goal = 0, at a
negative goal, and at total=376.4 / goal=5000. -/
theorem c7_render_witness :
    (draw_style_3 10 0 "p").pct = 0 ∧
    (draw_style_3 10 (-5) "p").pct = 0 ∧
    (draw_style_3 (1882 / 5) 5000 "p").pct = max 0 (min 1 (1882 / 5 / 5000)) :=
  ⟨(c7_render_amended 10 0 "p").2.1 (by norm_num),
   (c7_render_amended 10 (-5) "p").2.1 (by norm_num),
   (c7_render_amended (1882 / 5) 5000 "p").2.2.2.2.1 (by norm_num)⟩

/-- Claim C10, counterexample: the range from 1969-12-31T23:59:59.0Z
(timestamp −1) to 1969-12-31T23:59:59.5Z (timestamp −1/2) has start
strictly before end and both instants inside the same UTC second, yet
`int()` truncates toward zero, giving `after = −1 < before = 0`, so
`fetch_km` performs the fetch instead of rejecting the range. -/
theorem c10_subsecond_counterexample :
    ((-1 : ℚ) < -(1 / 2)) ∧ (⌊(-1 : ℚ)⌋ = ⌊(-(1 / 2) : ℚ)⌋) ∧
    fetch_km (okServer fun _ => []) (-1) (-(1 / 2)) 1 =
      ⟨[⟨-1, 0, 1, 200⟩], .ok 0⟩ := by
  refine ⟨by norm_num, by norm_num, ?_⟩
  have h1 : iso_to_unix (-1 : ℚ) = -1 := by
    norm_num [iso_to_unix, pyInt, Int.ceil_neg]
  have h2 : iso_to_unix (-(1 / 2) : ℚ) = 0 := by norm_num [iso_to_unix, pyInt]
  simp only [fetch_km, h1, h2]
  norm_num [fetchAux, get_page, getAux, okServer, transientStatus]

/-- Claim C10, amended: the bounds are truncated to whole epoch seconds
before the `after >= before` check; hence for instants at or after the
epoch (where truncation agrees with flooring), any range with start
strictly before end but both inside the same UTC second is rejected with
the invalid-period error before any request. -/
theorem c10_subsecond_amended (s e : ℚ) (server : Server) (fuel : ℕ)
    (hs : 0 ≤ s) (hlt : s < e) (hsec : ⌊s⌋ = ⌊e⌋) :
    fetch_km server s e fuel = ⟨[], .err .invalidPeriod⟩ := by
  have he : (0 : ℚ) ≤ e := hs.trans hlt.le
  have h1 : iso_to_unix s = ⌊s⌋ := by unfold iso_to_unix pyInt; exact if_pos hs
  have h2 : iso_to_unix e = ⌊e⌋ := by unfold iso_to_unix pyInt; exact if_pos he
  simp only [fetch_km, h1, h2, hsec, le_refl, if_true]

/-- Claim C10, witness: the amended theorem at the range [0.25 s, 0.5 s]. -/
theorem c10_subsecond_witness :
    fetch_km (okServer fun _ => []) (1 / 4) (1 / 2) 1 = ⟨[], .err .invalidPeriod⟩ :=
  c10_subsecond_amended (1 / 4) (1 / 2) (okServer fun _ => []) 1
    (by norm_num) (by norm_num) (by norm_num)

/-- Claim C2, counterexample: with period start = period end (= 5 s), the
run does fail with the validation error, but the token-refresh POST has
already been issued — the trace of network events is not empty. -/
theorem c2_validation_counterexample :
    iso_to_unix (5 : ℚ) ≥ iso_to_unix (5 : ℚ) ∧
    (main_net true (okServer fun _ => []) 5 5 1).2 = .err .invalidPeriod ∧
    NetEvent.tokenPost ∈ (main_net true (okServer fun _ => []) 5 5 1).1 := by
  have hm : main_net true (okServer fun _ => []) 5 5 1 =
      ([.tokenPost], .err .invalidPeriod) := by
    simp [main_net]
  exact ⟨le_rfl, by rw [hm], by rw [hm]; simp⟩

/-- Claim C2, amended: whenever the converted period start is greater than
or equal to the converted period end, the run fails with the validation
error and no activities GET is ever issued — but only after the
token-refresh POST, which `main` performs first (src line 222). -/
theorem c2_validation_amended (server : Server) (s e : ℚ) (fuel : ℕ)
    (h : iso_to_unix e ≤ iso_to_unix s) :
    main_net true server s e fuel = ([.tokenPost], .err .invalidPeriod) ∧
    ∀ p, NetEvent.activitiesGet p ∉ (main_net true server s e fuel).1 := by
  have hm : main_net true server s e fuel = ([.tokenPost], .err .invalidPeriod) := by
    simp [main_net, h]
  exact ⟨hm, by simp [hm]⟩

/-- Claim C2, witness: the amended theorem at start = 1 s, end = 0 s. -/
theorem c2_validation_witness :
    main_net true (okServer fun _ => []) 1 0 1 = ([.tokenPost], .err .invalidPeriod) :=
  (c2_validation_amended (okServer fun _ => []) 1 0 1
    (by norm_num [iso_to_unix, pyInt])).1

/-- Claim C8, counterexample: a run in which everything up to rendering
succeeds but the SVG write raises leaves exactly the PNG on disk — a
proper non-empty subset of the three artifacts. -/
theorem c8_outputs_counterexample :
    (main_writes true (fun a => decide (a = Artifact.svg))).2 = false ∧
    (main_writes true (fun a => decide (a = Artifact.svg))).1 = [Artifact.png] ∧
    (main_writes true (fun a => decide (a = Artifact.svg))).1 ≠ [] ∧
    (main_writes true (fun a => decide (a = Artifact.svg))).1 ≠
      [Artifact.png, Artifact.svg, Artifact.txt] := by
  refine ⟨?_, ?_, ?_, ?_⟩ <;> decide

/-- Claim C8, amended: the artifacts written by a failing run always form a
proper (possibly empty) prefix of PNG, SVG, text — any failure before the
PNG save writes nothing, but a failure at the SVG or text write leaves the
earlier artifacts behind, so a proper non-empty subset is possible. -/
theorem c8_outputs_amended (fetchOk : Bool) (wfail : Artifact → Bool)
    (hfail : (main_writes fetchOk wfail).2 = false) :
    (main_writes fetchOk wfail).1 <+: [Artifact.png, Artifact.svg, Artifact.txt] ∧
    (main_writes fetchOk wfail).1 ≠ [Artifact.png, Artifact.svg, Artifact.txt] ∧
    (fetchOk = false → (main_writes fetchOk wfail).1 = []) := by
  cases fetchOk with
  | false =>
    have hm : main_writes false wfail = ([], false) := by simp [main_writes]
    rw [hm]
    exact ⟨by decide, by decide, fun _ => rfl⟩
  | true =>
    cases hp : wfail .png with
    | true =>
      have hm : main_writes true wfail = ([], false) := by simp [main_writes, hp]
      rw [hm]
      exact ⟨by decide, by decide, by simp⟩
    | false =>
      cases hs : wfail .svg with
      | true =>
        have hm : main_writes true wfail = ([.png], false) := by
          simp [main_writes, hp, hs]
        rw [hm]
        exact ⟨by decide, by decide, by simp⟩
      | false =>
        cases ht : wfail .txt with
        | true =>
          have hm : main_writes true wfail = ([.png, .svg], false) := by
            simp [main_writes, hp, hs, ht]
          rw [hm]
          exact ⟨by decide, by decide, by simp⟩
        | false =>
          have hm : main_writes true wfail = ([.png, .svg, .txt], true) := by
            simp [main_writes, hp, hs, ht]
          rw [hm] at hfail
          exact absurd hfail (by decide)

/-- Claim C8, witness: the amended theorem on a run that fails before
rendering and writes nothing. -/
theorem c8_outputs_witness :
    (main_writes false (fun _ => false)).1 <+:
      [Artifact.png, Artifact.svg, Artifact.txt] ∧
    (main_writes false (fun _ => false)).1 ≠
      [Artifact.png, Artifact.svg, Artifact.txt] ∧
    (false = false → (main_writes false (fun _ => false)).1 = []) :=
  c8_outputs_amended false (fun _ => false) (by decide)

/-- Claim C1: against a server answering every attempt with 200 and whose
first empty page is page `N`, a valid range makes `fetch_km` request pages
1, 2, ..., N in order, each with `per_page = 200`, stop exactly at page `N`
(the first page with zero records), and return the km sum over the records
of the earlier pages that the classifier accepts, with absent/null distance
fields contributing zero.  With `N = 1` (empty page 1) the total is 0. -/
theorem c1_pagination (pages : ℕ → List Activity) (N : ℕ) (s e : ℚ) (fuel : ℕ)
    (hN : 1 ≤ N) (hempty : pages N = [])
    (hfull : ∀ p, 1 ≤ p → p < N → pages p ≠ [])
    (hrange : iso_to_unix s < iso_to_unix e) (hfuel : N ≤ fuel) :
    fetch_km (okServer pages) s e fuel =
      ⟨(List.range N).map fun k => ⟨iso_to_unix s, iso_to_unix e, 1 + k, 200⟩,
       .ok (ksum (((List.range (N - 1)).map fun k => pages (1 + k)).flatten))⟩ := by
  have hrun := fetchAux_ok_run pages (iso_to_unix s) (iso_to_unix e) (N - 1) 1 0 fuel
    (by omega)
    (fun k hk => hfull (1 + k) (by omega) (by omega))
    (by rw [show 1 + (N - 1) = N by omega]; exact hempty)
  have hN1 : N - 1 + 1 = N := by omega
  rw [hN1] at hrun
  simp only [fetch_km]
  rw [if_neg (not_le.mpr hrange), hrun]
  norm_num

/-- Claim C1, witness: a server with one 1000 m Ride on page 1 and empty
page 2 yields requests for pages 1 and 2 and total 1 km; an all-empty
server terminates on page 1 with total 0. -/
theorem c1_pagination_witness :
    fetch_km
        (okServer fun p => if p = 1 then [⟨some "Ride", none, some 1000⟩] else [])
        0 86400 2 =
      ⟨[⟨0, 86400, 1, 200⟩, ⟨0, 86400, 2, 200⟩], .ok 1⟩ ∧
    fetch_km (okServer fun _ => []) 0 86400 1 = ⟨[⟨0, 86400, 1, 200⟩], .ok 0⟩ := by
  have hi0 : iso_to_unix (0 : ℚ) = 0 := by norm_num [iso_to_unix, pyInt]
  have hi8 : iso_to_unix (86400 : ℚ) = 86400 := by norm_num [iso_to_unix, pyInt]
  have hsc : should_count ⟨some "Ride", none, some 1000⟩ = true := by decide
  constructor
  · have h := c1_pagination
      (fun p => if p = 1 then [⟨some "Ride", none, some 1000⟩] else [])
      2 0 86400 2 (by omega) (by norm_num)
      (fun p h1 h2 => by
        have hp : p = 1 := by omega
        subst hp; simp)
      (by rw [hi0, hi8]; omega) (by omega)
    rw [h, hi0, hi8]
    norm_num [List.range_succ, ksum, kmOf, hsc]
  · have h := c1_pagination (fun _ => []) 1 0 86400 1 (by omega) rfl
      (fun p h1 h2 => absurd h2 (by omega))
      (by rw [hi0, hi8]; omega) (by omega)
    rw [h, hi0, hi8]
    norm_num [List.range_succ, ksum]

/-- `getD` over the full range of indices reassembles the list. -/
lemma range_map_getD {α : Type} (l : List α) (d : α) :
    (List.range l.length).map (fun k => l.getD k d) = l := by
  induction l with
  | nil => simp
  | cons x xs ih =>
    rw [List.length_cons, List.range_succ_eq_map, List.map_cons, List.map_map]
    have hfun : ((fun k => (x :: xs).getD k d) ∘ Nat.succ) = fun k => xs.getD k d := by
      funext k
      simp [Function.comp]
    rw [hfun]
    exact congrArg₂ List.cons rfl ih

/-- In a chunk list without empty chunks, every chunk in range is non-empty. -/
lemma chunks_getD_ne {chunks : List (List Activity)} (h : [] ∉ chunks) {k : ℕ}
    (hk : k < chunks.length) : chunks.getD k [] ≠ [] := by
  intro hc
  apply h
  have hm : chunks.getD k [] ∈ chunks := by
    rw [List.getD_eq_getElem chunks [] hk]
    exact List.getElem_mem hk
  rw [← hc]
  exact hm

/-- `Int.log 2` at a rational pinned between two powers of two. -/
lemma int_log2_eq {q : ℚ} {e : ℤ} (hq : 0 < q) (h1 : (2 : ℚ) ^ e ≤ q)
    (h2 : q < (2 : ℚ) ^ (e + 1)) : Int.log 2 q = e := by
  have hb : (1 : ℕ) < 2 := by norm_num
  have hcast : ((2 : ℕ) : ℚ) = 2 := by norm_num
  have hle : e ≤ Int.log 2 q := by
    rw [← Int.zpow_le_iff_le_log hb hq, hcast]
    exact h1
  have hlt : Int.log 2 q < e + 1 := by
    rw [← Int.lt_zpow_iff_log_lt hb hq, hcast]
    exact h2
  omega

/-- Evaluation rule for `f64Round` on a positive argument with known
binade: scale, round the 53-bit significand half-to-even, scale back. -/
lemma f64Round_pos {q : ℚ} {e : ℤ} (hq : 0 < q) (h1 : (2 : ℚ) ^ e ≤ q)
    (h2 : q < (2 : ℚ) ^ (e + 1)) :
    f64Round q = (pyRound (q * 2 ^ ((52 : ℤ) - e)) : ℚ) * 2 ^ (e - 52) := by
  rw [f64Round, if_neg (ne_of_gt hq), if_neg (not_lt.mpr hq.le),
    int_log2_eq hq h1 h2]

/-- The float pagination loop against an always-200 server whose first
empty page, counting from `page`, is `page + n`: same requests as the exact
loop, and the accumulator is folded through every delivered record in
delivery order. -/
lemma fetchAuxF_ok_run (pages : ℕ → List Activity) (a b : ℤ) :
    ∀ (n page : ℕ) (acc : ℚ) (fuel : ℕ), n < fuel →
      (∀ k, k < n → pages (page + k) ≠ []) → pages (page + n) = [] →
      fetchAuxF (okServer pages) a b fuel page acc =
        ⟨(List.range (n + 1)).map fun k => ⟨a, b, page + k, 200⟩,
         .ok (addPageF acc (((List.range n).map fun k => pages (page + k)).flatten))⟩ := by
  intro n
  induction n with
  | zero =>
    intro page acc fuel hf _ hemp
    obtain ⟨f, rfl⟩ : ∃ f, fuel = f + 1 := ⟨fuel - 1, by omega⟩
    have hget : get_page (okServer pages page) = ⟨1, [], .ok ⟨200, pages page⟩⟩ :=
      getAux_success (by omega) (by norm_num [okServer])
    have hpp : pages page = [] := by simpa using hemp
    simp [fetchAuxF, hget, hpp, addPageF, List.range_succ]
  | succ n ih =>
    intro page acc fuel hf hne hemp
    obtain ⟨f, rfl⟩ : ∃ f, fuel = f + 1 := ⟨fuel - 1, by omega⟩
    have hget : get_page (okServer pages page) = ⟨1, [], .ok ⟨200, pages page⟩⟩ :=
      getAux_success (by omega) (by norm_num [okServer])
    have hne0 : pages page ≠ [] := by
      have := hne 0 (by omega); simpa using this
    have hrec := ih (page + 1) (addPageF acc (pages page)) f (by omega)
      (fun k hk => by
        have h := hne (k + 1) (by omega)
        have harr : page + 1 + k = page + (k + 1) := by omega
        rw [harr]; exact h)
      (by
        have harr : page + 1 + n = page + (n + 1) := by omega
        rw [harr]; exact hemp)
    have hbody : (pages page).isEmpty = false := by
      cases hpp : pages page with
      | nil => exact absurd hpp hne0
      | cons x xs => rfl
    have hcalls : ((List.range (n + 1 + 1)).map fun k => (⟨a, b, page + k, 200⟩ : PageParams)) =
        ⟨a, b, page, 200⟩ ::
          ((List.range (n + 1)).map fun k => ⟨a, b, page + 1 + k, 200⟩) := by
      rw [List.range_succ_eq_map, List.map_cons, List.map_map]
      have hfun : ((fun k => (⟨a, b, page + k, 200⟩ : PageParams)) ∘ Nat.succ) =
          fun k => (⟨a, b, page + 1 + k, 200⟩ : PageParams) := by
        funext k
        have h : page + (k + 1) = page + 1 + k := by omega
        simp [Function.comp, Nat.succ_eq_add_one, h]
      rw [hfun]
      norm_num
    have hjoin : (((List.range (n + 1)).map fun k => pages (page + k)).flatten : List Activity) =
        pages page ++ ((List.range n).map fun k => pages (page + 1 + k)).flatten := by
      rw [List.range_succ_eq_map, List.map_cons, List.map_map]
      have hfun : ((fun k => pages (page + k)) ∘ Nat.succ) =
          fun k => pages (page + 1 + k) := by
        funext k
        have h : page + (k + 1) = page + 1 + k := by omega
        simp [Function.comp, Nat.succ_eq_add_one, h]
      rw [hfun]
      simp
    have hstep : fetchAuxF (okServer pages) a b (f + 1) page acc =
        ⟨⟨a, b, page, 200⟩ ::
            (fetchAuxF (okServer pages) a b f (page + 1) (addPageF acc (pages page))).calls,
         (fetchAuxF (okServer pages) a b f (page + 1) (addPageF acc (pages page))).out⟩ := by
      simp [fetchAuxF, hget, hbody]
    rw [hstep, hrec, hcalls, hjoin]
    simp [addPageF, List.foldl_append]

/-- The float fetch against the page-per-chunk server of `chunks` (no chunk
empty) folds the accumulator through all the chunks' records in order. -/
lemma fetch_kmF_chunks (chunks : List (List Activity)) (s e : ℚ) (fuel : ℕ)
    (hc : [] ∉ chunks) (hrange : iso_to_unix s < iso_to_unix e)
    (hf : chunks.length < fuel) :
    fetch_kmF (okServer (pagesOfChunks chunks)) s e fuel =
      ⟨(List.range (chunks.length + 1)).map
          fun k => ⟨iso_to_unix s, iso_to_unix e, 1 + k, 200⟩,
       .ok (addPageF 0 chunks.flatten)⟩ := by
  have hrun := fetchAuxF_ok_run (pagesOfChunks chunks) (iso_to_unix s) (iso_to_unix e)
    chunks.length 1 0 fuel hf
    (fun k hk => by
      have hpk : pagesOfChunks chunks (1 + k) = chunks.getD k [] := by
        simp [pagesOfChunks]
      rw [hpk]
      exact chunks_getD_ne hc hk)
    (by simp [pagesOfChunks])
  have hmapeq : ((List.range chunks.length).map fun k => pagesOfChunks chunks (1 + k)) =
      chunks := by
    have hfun : (fun k => pagesOfChunks chunks (1 + k)) = fun k => chunks.getD k [] := by
      funext k
      simp [pagesOfChunks]
    rw [hfun, range_map_getD]
  rw [hmapeq] at hrun
  simp only [fetch_kmF]
  rw [if_neg (not_le.mpr hrange), hrun]

/-- Claim C6, counterexample: three Rides of 100 m, 200 m, 300 m.  Their
per-record double contributions are 0.1, 0.2, 0.3 (each rounded to
binary64).  Delivered in that order the program computes
(0.1 + 0.2) + 0.3 = 0.6000000000000001 (= 5404319552844596 / 2^53), in the
reversed order (0.3 + 0.2) + 0.1 = 0.6 (= 5404319552844595 / 2^53): the
same multiset of records, two different floating-point totals, refuting
order-independence of the float aggregate. -/
theorem c6_order_counterexample :
    (fetch_kmF
        (okServer (pagesOfChunks [[⟨some "Ride", none, some 100⟩,
          ⟨some "Ride", none, some 200⟩, ⟨some "Ride", none, some 300⟩]]))
        0 86400 2).out = .ok (5404319552844596 / 9007199254740992) ∧
    (fetch_kmF
        (okServer (pagesOfChunks [[⟨some "Ride", none, some 300⟩,
          ⟨some "Ride", none, some 200⟩, ⟨some "Ride", none, some 100⟩]]))
        0 86400 2).out = .ok (5404319552844595 / 9007199254740992) ∧
    ([⟨some "Ride", none, some 100⟩, ⟨some "Ride", none, some 200⟩,
        ⟨some "Ride", none, some 300⟩] : List Activity).Perm
      [⟨some "Ride", none, some 300⟩, ⟨some "Ride", none, some 200⟩,
        ⟨some "Ride", none, some 100⟩] ∧
    (5404319552844596 / 9007199254740992 : ℚ) ≠
      5404319552844595 / 9007199254740992 := by
  have hsc100 : should_count ⟨some "Ride", none, some 100⟩ = true := by decide
  have hsc200 : should_count ⟨some "Ride", none, some 200⟩ = true := by decide
  have hsc300 : should_count ⟨some "Ride", none, some 300⟩ = true := by decide
  have hd1 : f64div 100 1000 = 3602879701896397 / 36028797018963968 := by
    rw [f64div, show (100 : ℚ) / 1000 = 1 / 10 by norm_num,
      f64Round_pos (e := -4) (by norm_num) (by norm_num) (by norm_num)]
    norm_num [pyRound]
  have hd2 : f64div 200 1000 = 3602879701896397 / 18014398509481984 := by
    rw [f64div, show (200 : ℚ) / 1000 = 1 / 5 by norm_num,
      f64Round_pos (e := -3) (by norm_num) (by norm_num) (by norm_num)]
    norm_num [pyRound]
  have hd3 : f64div 300 1000 = 5404319552844595 / 18014398509481984 := by
    rw [f64div, show (300 : ℚ) / 1000 = 3 / 10 by norm_num,
      f64Round_pos (e := -2) (by norm_num) (by norm_num) (by norm_num)]
    norm_num [pyRound]
  have ha1 : f64add 0 (3602879701896397 / 36028797018963968) =
      3602879701896397 / 36028797018963968 := by
    rw [f64add, show (0 : ℚ) + 3602879701896397 / 36028797018963968 =
        3602879701896397 / 36028797018963968 by norm_num,
      f64Round_pos (e := -4) (by norm_num) (by norm_num) (by norm_num)]
    norm_num [pyRound]
  have ha2 : f64add (3602879701896397 / 36028797018963968)
      (3602879701896397 / 18014398509481984) =
      5404319552844596 / 18014398509481984 := by
    rw [f64add, show (3602879701896397 : ℚ) / 36028797018963968 +
        3602879701896397 / 18014398509481984 =
        10808639105689191 / 36028797018963968 by norm_num,
      f64Round_pos (e := -2) (by norm_num) (by norm_num) (by norm_num)]
    norm_num [pyRound]
  have ha3 : f64add (5404319552844596 / 18014398509481984)
      (5404319552844595 / 18014398509481984) =
      5404319552844596 / 9007199254740992 := by
    rw [f64add, show (5404319552844596 : ℚ) / 18014398509481984 +
        5404319552844595 / 18014398509481984 =
        10808639105689191 / 18014398509481984 by norm_num,
      f64Round_pos (e := -1) (by norm_num) (by norm_num) (by norm_num)]
    norm_num [pyRound]
  have hb1 : f64add 0 (5404319552844595 / 18014398509481984) =
      5404319552844595 / 18014398509481984 := by
    rw [f64add, show (0 : ℚ) + 5404319552844595 / 18014398509481984 =
        5404319552844595 / 18014398509481984 by norm_num,
      f64Round_pos (e := -2) (by norm_num) (by norm_num) (by norm_num)]
    norm_num [pyRound]
  have hb2 : f64add (5404319552844595 / 18014398509481984)
      (3602879701896397 / 18014398509481984) = 1 / 2 := by
    rw [f64add, show (5404319552844595 : ℚ) / 18014398509481984 +
        3602879701896397 / 18014398509481984 = 1 / 2 by norm_num,
      f64Round_pos (e := -1) (by norm_num) (by norm_num) (by norm_num)]
    norm_num [pyRound]
  have hb3 : f64add (1 / 2) (3602879701896397 / 36028797018963968) =
      5404319552844595 / 9007199254740992 := by
    rw [f64add, show (1 : ℚ) / 2 + 3602879701896397 / 36028797018963968 =
        21617278211378381 / 36028797018963968 by norm_num,
      f64Round_pos (e := -1) (by norm_num) (by norm_num) (by norm_num)]
    norm_num [pyRound]
  have hrange : iso_to_unix (0 : ℚ) < iso_to_unix (86400 : ℚ) := by
    norm_num [iso_to_unix, pyInt]
  refine ⟨?_, ?_, ?_, by norm_num⟩
  · rw [fetch_kmF_chunks _ 0 86400 2 (by simp) hrange (by norm_num)]
    show FetchOut.ok _ = _
    rw [show addPageF 0 ([[⟨some "Ride", none, some 100⟩, ⟨some "Ride", none, some 200⟩,
        ⟨some "Ride", none, some 300⟩]] : List (List Activity)).flatten =
        f64add (f64add (f64add 0 (f64div 100 1000)) (f64div 200 1000)) (f64div 300 1000) by
      simp [addPageF, addActivityF, hsc100, hsc200, hsc300]]
    rw [hd1, hd2, hd3, ha1, ha2, ha3]
  · rw [fetch_kmF_chunks _ 0 86400 2 (by simp) hrange (by norm_num)]
    show FetchOut.ok _ = _
    rw [show addPageF 0 ([[⟨some "Ride", none, some 300⟩, ⟨some "Ride", none, some 200⟩,
        ⟨some "Ride", none, some 100⟩]] : List (List Activity)).flatten =
        f64add (f64add (f64add 0 (f64div 300 1000)) (f64div 200 1000)) (f64div 100 1000) by
      simp [addPageF, addActivityF, hsc100, hsc200, hsc300]]
    rw [hd1, hd2, hd3, hb1, hb2, hb3]
  · have hs := List.reverse_perm [(⟨some "Ride", none, some 100⟩ : Activity),
      ⟨some "Ride", none, some 200⟩, ⟨some "Ride", none, some 300⟩]
    simpa using hs.symm

/-- Claim C6, amended: the floating-point total is independent of how the
records are split across pages when their delivery order is preserved — any
page-partition of the same record sequence yields exactly the same total as
one page, because the same rounded additions happen in the same order; full
order-independence holds only in exact arithmetic. -/
theorem c6_split_invariance (chunks₁ chunks₂ : List (List Activity)) (s e : ℚ)
    (fuel₁ fuel₂ : ℕ) (h₁ : [] ∉ chunks₁) (h₂ : [] ∉ chunks₂)
    (heq : chunks₁.flatten = chunks₂.flatten)
    (hrange : iso_to_unix s < iso_to_unix e)
    (hf₁ : chunks₁.length < fuel₁) (hf₂ : chunks₂.length < fuel₂) :
    (fetch_kmF (okServer (pagesOfChunks chunks₁)) s e fuel₁).out =
      .ok (addPageF 0 chunks₁.flatten) ∧
    (fetch_kmF (okServer (pagesOfChunks chunks₂)) s e fuel₂).out =
      .ok (addPageF 0 chunks₂.flatten) ∧
    addPageF 0 chunks₁.flatten = addPageF 0 chunks₂.flatten := by
  refine ⟨?_, ?_, ?_⟩
  · rw [fetch_kmF_chunks chunks₁ s e fuel₁ h₁ hrange hf₁]
  · rw [fetch_kmF_chunks chunks₂ s e fuel₂ h₂ hrange hf₂]
  · rw [heq]

/-- Claim C6, witness: the same three records split as 1+2 across two pages
versus one page of three give identical totals. -/
theorem c6_split_invariance_witness :
    (fetch_kmF
        (okServer (pagesOfChunks [[⟨some "Ride", none, some 100⟩],
          [⟨some "Ride", none, some 200⟩, ⟨some "Ride", none, some 300⟩]]))
        0 86400 3).out =
      .ok (addPageF 0 ([[⟨some "Ride", none, some 100⟩],
        [⟨some "Ride", none, some 200⟩,
          ⟨some "Ride", none, some 300⟩]] : List (List Activity)).flatten) ∧
    (fetch_kmF
        (okServer (pagesOfChunks [[⟨some "Ride", none, some 100⟩,
          ⟨some "Ride", none, some 200⟩, ⟨some "Ride", none, some 300⟩]]))
        0 86400 3).out =
      .ok (addPageF 0 ([[⟨some "Ride", none, some 100⟩,
        ⟨some "Ride", none, some 200⟩,
          ⟨some "Ride", none, some 300⟩]] : List (List Activity)).flatten) ∧
    addPageF 0 ([[⟨some "Ride", none, some 100⟩],
        [⟨some "Ride", none, some 200⟩,
          ⟨some "Ride", none, some 300⟩]] : List (List Activity)).flatten =
      addPageF 0 ([[⟨some "Ride", none, some 100⟩,
        ⟨some "Ride", none, some 200⟩,
          ⟨some "Ride", none, some 300⟩]] : List (List Activity)).flatten :=
  c6_split_invariance
    [[⟨some "Ride", none, some 100⟩],
      [⟨some "Ride", none, some 200⟩, ⟨some "Ride", none, some 300⟩]]
    [[⟨some "Ride", none, some 100⟩, ⟨some "Ride", none, some 200⟩,
      ⟨some "Ride", none, some 300⟩]]
    0 86400 3 3 (by simp) (by simp) rfl
    (by norm_num [iso_to_unix, pyInt]) (by norm_num) (by norm_num)

/-- A qualifying record with non-negative distance contributes a
non-negative amount. -/
lemma kmOf_nonneg {a : Activity} (h : 0 ≤ a.distance.getD 0) : 0 ≤ kmOf a := by
  by_cases hsc : should_count a <;> simp [kmOf, hsc]
  positivity

/-- One accumulator step never decreases the total when the record's
distance is non-negative. -/
lemma addActivity_le (acc : ℚ) (a : Activity) (h : 0 ≤ a.distance.getD 0) :
    acc ≤ addActivity acc a := by
  rw [addActivity_eq]
  have := kmOf_nonneg h
  linarith

/-- A page of records with non-negative distances has a non-negative km
total. -/
lemma ksum_nonneg {l : List Activity} (h : ∀ a ∈ l, 0 ≤ a.distance.getD 0) :
    0 ≤ ksum l := by
  unfold ksum
  apply List.sum_nonneg
  intro x hx
  obtain ⟨a, ha, rfl⟩ := List.mem_map.mp hx
  exact kmOf_nonneg (h a ha)

/-- The remaining non-2xx branch of the retry loop: any other status at
least 400 raises the generic HTTP error at once. -/
lemma getAux_http {respAt : ℕ → HttpResp} {i fuel : ℕ} (hfuel : 0 < fuel)
    (h1 : ¬ (respAt i).status_code = 401) (h2 : ¬ (respAt i).status_code = 400)
    (h3 : transientStatus (respAt i).status_code = false)
    (h4 : 400 ≤ (respAt i).status_code) :
    getAux respAt i fuel = ⟨1, [], .err (.httpError (respAt i).status_code)⟩ := by
  obtain ⟨f, rfl⟩ : ∃ f, fuel = f + 1 := ⟨fuel - 1, by omega⟩
  simp [getAux, h1, h2, h3, h4]

/-- Any response the retry loop returns successfully is one of the server's
responses for that page. -/
lemma getAux_ok_src {respAt : ℕ → HttpResp} :
    ∀ {fuel i : ℕ} {resp : HttpResp},
      (getAux respAt i fuel).outcome = .ok resp → ∃ j, resp = respAt j := by
  intro fuel
  induction fuel with
  | zero => intro i resp h; simp [getAux] at h
  | succ f ih =>
    intro i resp h
    by_cases h1 : (respAt i).status_code = 401
    · rw [getAux_401 (by omega) h1] at h; simp at h
    · by_cases h2 : (respAt i).status_code = 400
      · rw [getAux_400 (by omega) h2] at h; simp at h
      · by_cases h3 : transientStatus (respAt i).status_code = true
        · rw [getAux_transient_step h3] at h
          exact ih h
        · by_cases h4 : 400 ≤ (respAt i).status_code
          · rw [getAux_http (by omega) h1 h2 (by simpa using h3) h4] at h
            simp at h
          · rw [getAux_success (by omega) (by omega)] at h
            simp at h
            exact ⟨i, h.symm⟩

/-- The pagination loop only ever increases the accumulator when every
record the server delivers has a non-negative distance. -/
lemma fetchAux_mono {server : Server} {a b : ℤ}
    (hpos : ∀ p k x, x ∈ (server p k).body → 0 ≤ x.distance.getD 0) :
    ∀ (fl page : ℕ) (acc t : ℚ),
      (fetchAux server a b fl page acc).out = .ok t → acc ≤ t := by
  intro fl
  induction fl with
  | zero => intro page acc t h; simp [fetchAux] at h
  | succ f ih =>
    intro page acc t h
    cases hg : (get_page (server page)).outcome with
    | err e => simp [fetchAux, hg] at h
    | ok resp =>
      by_cases hb : resp.body.isEmpty
      · simp [fetchAux, hg, hb] at h
        linarith [h.le]
      · simp only [fetchAux, hg, hb, Bool.false_eq_true, if_false, ite_false] at h
        have hmem : ∀ x ∈ resp.body, 0 ≤ x.distance.getD 0 := by
          obtain ⟨j, rfl⟩ := getAux_ok_src hg
          exact fun x hx => hpos page j x hx
        have h1 : acc ≤ addPage acc resp.body := by
          rw [addPage_eq]
          have := ksum_nonneg hmem
          linarith
        exact h1.trans (ih (page + 1) _ t h)

/-- Claim C9, counterexample: a server delivering a single Ride whose
distance field is −1000 m makes `fetch_km` return −1.0, a negative total —
nothing in the code prevents a negative distance from decreasing the
total. -/
theorem c9_nonnegative_counterexample :
    (fetch_km
        (okServer fun p => if p = 1 then [⟨some "Ride", none, some (-1000)⟩] else [])
        0 86400 2).out = .ok (-1) ∧
    ¬ (0 : ℚ) ≤ (-1 : ℚ) := by
  have hi0 : iso_to_unix (0 : ℚ) = 0 := by norm_num [iso_to_unix, pyInt]
  have hi8 : iso_to_unix (86400 : ℚ) = 86400 := by norm_num [iso_to_unix, pyInt]
  have hsc : should_count ⟨some "Ride", none, some (-1000)⟩ = true := by decide
  constructor
  · have h := fetchAux_ok_run
      (fun p => if p = 1 then [⟨some "Ride", none, some (-1000)⟩] else [])
      (iso_to_unix 0) (iso_to_unix 86400) 1 1 0 2 (by omega)
      (fun k hk => by
        have hk0 : k = 0 := by omega
        subst hk0; simp)
      (by norm_num)
    simp only [fetch_km]
    rw [if_neg (by rw [hi0, hi8]; omega), h]
    norm_num [List.range_succ, ksum, kmOf, hsc]
  · norm_num

/-- Claim C9, amended: when every record the server delivers has a
non-negative distance (absent/null counting as zero), the accumulation is
monotone — no record decreases the running total, every loop invocation
returns at least its starting accumulator — and any total `fetch_km`
returns is non-negative. -/
theorem c9_nonnegative_amended (server : Server) (s e : ℚ) (fuel : ℕ)
    (hpos : ∀ p k x, x ∈ (server p k).body → 0 ≤ x.distance.getD 0) :
    (∀ (acc : ℚ) (a : Activity), 0 ≤ a.distance.getD 0 → acc ≤ addActivity acc a) ∧
    (∀ (fl page : ℕ) (acc t : ℚ),
      (fetchAux server (iso_to_unix s) (iso_to_unix e) fl page acc).out = .ok t →
        acc ≤ t) ∧
    (∀ t : ℚ, (fetch_km server s e fuel).out = .ok t → 0 ≤ t) := by
  refine ⟨fun acc a h => addActivity_le acc a h,
    fun fl page acc t h => fetchAux_mono hpos fl page acc t h, ?_⟩
  intro t ht
  simp only [fetch_km] at ht
  by_cases hle : iso_to_unix e ≤ iso_to_unix s
  · rw [if_pos hle] at ht
    simp at ht
  · rw [if_neg hle] at ht
    exact fetchAux_mono hpos fuel 1 0 t ht

/-- Claim C9, witness: the amended theorem applied to a concrete server
with one 1000 m Ride, giving the non-negative total 1. -/
theorem c9_nonnegative_witness : (0 : ℚ) ≤ 1 := by
  have hpos : ∀ p k x,
      x ∈ ((okServer fun p => if p = 1 then [⟨some "Ride", none, some 1000⟩] else [])
        p k).body → 0 ≤ x.distance.getD 0 := by
    intro p k x hx
    simp only [okServer] at hx
    by_cases hp : p = 1
    · rw [if_pos hp] at hx
      simp at hx
      subst hx
      norm_num
    · rw [if_neg hp] at hx
      simp at hx
  have hi0 : iso_to_unix (0 : ℚ) = 0 := by norm_num [iso_to_unix, pyInt]
  have hi8 : iso_to_unix (86400 : ℚ) = 86400 := by norm_num [iso_to_unix, pyInt]
  have hsc : should_count ⟨some "Ride", none, some 1000⟩ = true := by decide
  have hout : (fetch_km
      (okServer fun p => if p = 1 then [⟨some "Ride", none, some 1000⟩] else [])
      0 86400 2).out = .ok 1 := by
    have h := fetchAux_ok_run
      (fun p => if p = 1 then [⟨some "Ride", none, some 1000⟩] else [])
      (iso_to_unix 0) (iso_to_unix 86400) 1 1 0 2 (by omega)
      (fun k hk => by
        have hk0 : k = 0 := by omega
        subst hk0; simp)
      (by norm_num)
    simp only [fetch_km]
    rw [if_neg (by rw [hi0, hi8]; omega), h]
    norm_num [List.range_succ, ksum, kmOf, hsc]
  exact (c9_nonnegative_amended
    (okServer fun p => if p = 1 then [⟨some "Ride", none, some 1000⟩] else [])
    0 86400 2 hpos).2.2 1 hout

end StravaKm
